import Mathlib

/-!
Shallow embedding of the Oracle stored-procedure invocation engine of
`go-oracle-procedures` (package `repository`, the go-ora based
`OracleRepository`, together with the request model's `Validate`).

The Go code is translated function by function:

* `request.ProcedureParam` / `request.CallProcedureRequest` → `ProcedureParam`,
  `CallProcedureRequest` (the Go field `Type` is spelled `Typ` here because
  `Type` is reserved in Lean).
* dynamic Go values (`any` after JSON decoding / test inputs) → `GoValue`.
* `convertInputValue`, `createOutputParameter`, `CallProcedure`,
  `processOutputParameters`, `processRowsResult`, `GetProcedureInfo`,
  `Validate` → same names below.

Go standard-library routines that the repository merely calls
(`strconv.ParseFloat`, `time.Parse`/`time.Time.Format` with RFC 3339,
`fmt.Sprintf("%v", ·)`) are not code of this repository; they are abstracted
into a `GoLib` record of functions that every theorem quantifies over.
`float64` values are modelled as rationals: the engine never computes with
them, it only injects integers into them and passes them along.

The database is abstracted into a `DbEnv` record describing the outcome of
the one `ExecContext` round trip (error or the values written into each
output destination) and, per parameter name, the outcome of
`go_ora.WrapRefCursor` and of iterating the resulting row set.  Database
interaction and row-set resource acquisition/release are recorded in an
explicit event trace.
-/


/-- Dynamic Go scalar values as they occur in `ProcedureParam.Value` and in
scanned row cells.  `vInt`, `vInt64` and `vFloat` are kept distinct because
Go type switches distinguish `int`, `int64` and `float64`; `vTime` is an
abstract instant (`time.Time`), `vBytes` a `[]byte` with its content as a
string of bytes. -/
inductive GoValue where
  | vNull
  | vBool (b : Bool)
  | vInt (n : Int)
  | vInt64 (n : Int)
  | vFloat (q : ℚ)
  | vStr (s : String)
  | vBytes (s : String)
  | vTime (t : Int)
deriving DecidableEq, Repr

/-- Model of Go `strings.ToUpper`, written structurally (ASCII case mapping;
all type and direction keywords compared in the repository are ASCII) so that
it reduces inside the kernel. -/
def strToUpper (s : String) : String := ⟨s.data.map Char.toUpper⟩

/-- Model of Go `strings.ToLower`, structural like `strToUpper`. -/
def strToLower (s : String) : String := ⟨s.data.map Char.toLower⟩

/-- Mirror of Go `request.ProcedureParam` (field `Type` renamed to `Typ`). -/
structure ProcedureParam where
  Name : String
  Typ : String
  Value : GoValue
  Direction : String
deriving DecidableEq, Repr

/-- Mirror of Go `request.CallProcedureRequest`. -/
structure CallProcedureRequest where
  Name : String
  Params : List ProcedureParam
deriving DecidableEq, Repr

/-- Go standard-library functions used by the repository, abstracted:
`parseFloat` is `strconv.ParseFloat(·, 64)` (`none` = parse error),
`parseRFC3339` is `time.Parse(time.RFC3339, ·)`, `fmtTime` is
`t.Format(time.RFC3339)`, and `sprintf` is `fmt.Sprintf("%v", ·)`. -/
structure GoLib where
  parseFloat : String → Option ℚ
  parseRFC3339 : String → Option Int
  fmtTime : Int → String
  sprintf : GoValue → String

/-- Translation of `OracleRepository.convertInputValue`.  Each branch mirrors
the Go `switch strings.ToUpper(p.Type)` and the inner type switches on
`p.Value`.  In the `BOOLEAN` branch the Go code reads
`case int, int64, float64: return v != 0`: in a multi-type case the switch
variable keeps the interface type, so `v != 0` compares the interface value
against the boxed untyped constant `0` (dynamic type `int`); the comparison
is therefore `true` for every `int64` and every `float64`, including zero
ones, and tests the numeric value only for `int`. -/
def convertInputValue (lib : GoLib) (p : ProcedureParam) : GoValue :=
  if strToUpper p.Typ = "NUMBER" ∨ strToUpper p.Typ = "INTEGER" ∨ strToUpper p.Typ = "INT" ∨
      strToUpper p.Typ = "FLOAT" ∨ strToUpper p.Typ = "DOUBLE" then
    match p.Value with
    | .vFloat q => .vFloat q
    | .vInt n => .vFloat (n : ℚ)
    | .vInt64 n => .vFloat (n : ℚ)
    | .vStr s =>
      match lib.parseFloat s with
      | some f => .vFloat f
      | none => .vStr s
    | v => v
  else if strToUpper p.Typ = "VARCHAR2" ∨ strToUpper p.Typ = "VARCHAR" ∨ strToUpper p.Typ = "CHAR" ∨
      strToUpper p.Typ = "CLOB" ∨ strToUpper p.Typ = "NVARCHAR2" ∨ strToUpper p.Typ = "NCHAR" ∨
      strToUpper p.Typ = "NCLOB" then
    .vStr (lib.sprintf p.Value)
  else if strToUpper p.Typ = "DATE" ∨ strToUpper p.Typ = "TIMESTAMP" ∨
      strToUpper p.Typ = "TIMESTAMP WITH TIME ZONE" ∨
      strToUpper p.Typ = "TIMESTAMP WITH LOCAL TIME ZONE" then
    match p.Value with
    | .vStr s =>
      match lib.parseRFC3339 s with
      | some t => .vTime t
      | none => .vStr s
    | .vTime t => .vTime t
    | v => v
  else if strToUpper p.Typ = "BOOLEAN" then
    match p.Value with
    | .vBool b => .vBool b
    | .vStr s => .vBool (strToLower s = "true" ∨ s = "1")
    | .vInt n => .vBool (n ≠ 0)
    | .vInt64 _ => .vBool true
    | .vFloat _ => .vBool true
    | _ => .vBool false
  else if strToUpper p.Typ = "RAW" ∨ strToUpper p.Typ = "BLOB" then
    match p.Value with
    | .vBytes b => .vBytes b
    | .vStr s => .vBytes s
    | v => v
  else
    p.Value

/-- Test of the repository's REF-CURSOR type spellings: `CallProcedure` treats
a parameter as cursor-typed exactly when `strings.ToUpper(p.Type)` equals
`"REF CURSOR"` or `"SYS_REFCURSOR"`. -/
def isCursorType (t : String) : Bool :=
  strToUpper t = "REF CURSOR" ∨ strToUpper t = "SYS_REFCURSOR"

/-- Shape of the destination allocated for an output (or in-out) parameter.
`nFloat`/`nString`/`nTime` are the nullable `sql.NullFloat64`/`sql.NullString`
/`sql.NullTime`, `dBool` a plain `bool`, `dBytes` a `[]byte`, `dAny` a bare
`any`, and `dCursor` a `go_ora.RefCursor` handle. -/
inductive DestKind where
  | nFloat
  | nString
  | nTime
  | dBool
  | dBytes
  | dAny
  | dCursor
deriving DecidableEq, Repr

/-- Translation of `OracleRepository.createOutputParameter`: the dispatch over
`strings.ToUpper(p.Type)` choosing the destination shape (the `Size: 4000`
bound on string and byte destinations has no observable effect in the model).
This Go function is never called for cursor-typed parameters; `CallProcedure`
branches those off beforehand. -/
def createOutputParameter (p : ProcedureParam) : DestKind :=
  if strToUpper p.Typ = "NUMBER" ∨ strToUpper p.Typ = "INTEGER" ∨ strToUpper p.Typ = "INT" ∨
      strToUpper p.Typ = "FLOAT" ∨ strToUpper p.Typ = "DOUBLE" then
    .nFloat
  else if strToUpper p.Typ = "VARCHAR2" ∨ strToUpper p.Typ = "VARCHAR" ∨ strToUpper p.Typ = "CHAR" ∨
      strToUpper p.Typ = "CLOB" ∨ strToUpper p.Typ = "NVARCHAR2" ∨ strToUpper p.Typ = "NCHAR" ∨
      strToUpper p.Typ = "NCLOB" then
    .nString
  else if strToUpper p.Typ = "DATE" ∨ strToUpper p.Typ = "TIMESTAMP" ∨
      strToUpper p.Typ = "TIMESTAMP WITH TIME ZONE" ∨
      strToUpper p.Typ = "TIMESTAMP WITH LOCAL TIME ZONE" then
    .nTime
  else if strToUpper p.Typ = "BOOLEAN" then
    .dBool
  else if strToUpper p.Typ = "RAW" ∨ strToUpper p.Typ = "BLOB" then
    .dBytes
  else
    .dAny

/-- Bind argument passed to `ExecContext` for one parameter, the payload of
`sql.Named(p.Name, ·)`: a converted input value, an output destination
(`go_ora.Out`), or the in/out struct used for INOUT parameters. -/
inductive BoundArg where
  | inArg (v : GoValue)
  | outArg (k : DestKind)
  | inoutArg (v : GoValue) (k : DestKind)
deriving DecidableEq, Repr

/-- Translation of the parameter loop at the top of
`OracleRepository.CallProcedure` (the go-ora version).  It returns the `args`
slice (name/argument pairs, in input order) together with the
`outputParams` map.  The Go map is modelled as an association list onto which
each insertion is prepended, so that `List.lookup` finds the most recent
write, matching Go's overwrite semantics. -/
def bindParams (lib : GoLib) : List ProcedureParam →
    Except String (List (String × BoundArg) × List (String × DestKind))
  | [] => .ok ([], [])
  | p :: rest =>
    if strToUpper p.Direction = "IN" then
      match bindParams lib rest with
      | .error e => .error e
      | .ok (args, outMap) => .ok ((p.Name, .inArg (convertInputValue lib p)) :: args, outMap)
    else if strToUpper p.Direction = "OUT" then
      let k := if isCursorType p.Typ then DestKind.dCursor else createOutputParameter p
      match bindParams lib rest with
      | .error e => .error e
      | .ok (args, outMap) => .ok ((p.Name, .outArg k) :: args, outMap ++ [(p.Name, k)])
    else if strToUpper p.Direction = "INOUT" then
      if isCursorType p.Typ then
        .error "REF CURSOR cannot be used as INOUT parameter"
      else
        let k := createOutputParameter p
        match bindParams lib rest with
        | .error e => .error e
        | .ok (args, outMap) =>
          .ok ((p.Name, .inoutArg (convertInputValue lib p) k) :: args, outMap ++ [(p.Name, k)])
    else
      .error ("unsupported parameter direction: " ++ p.Direction)

/-- Placeholder part of the PL/SQL block, mirroring the Go loop
`for i, p := range params { if i > 0 { query += ", " }; query += ":p.Name }`. -/
def placeholderConcat : List ProcedureParam → String
  | [] => ""
  | p :: rest => ":" ++ p.Name ++ (rest.map (fun q => ", :" ++ q.Name)).foldl (· ++ ·) ""

/-- Translation of the query construction in `CallProcedure`:
`"BEGIN name(" + placeholders + "); END;"`. -/
def buildQuery (name : String) (params : List ProcedureParam) : String :=
  "BEGIN " ++ name ++ "(" ++ placeholderConcat params ++ "); END;"

/-- Observable interactions of one invocation: the single `ExecContext`
round trip, and acquisition/release of a row set obtained from
`go_ora.WrapRefCursor`. -/
inductive Event where
  | exec (query : String)
  | rowsAcquired
  | rowsClosed
deriving DecidableEq, Repr

/-- Behaviour of one wrapped cursor's row set, as observed through
`sql.Rows`: the outcome of `rows.Columns()`, the rows that `Next`/`Scan`
deliver successfully (in fetch order), an optional scan failure on the
following row, and the value of `rows.Err()` after iteration. -/
structure RowsSpec where
  colsErr : Option String
  cols : List String
  goodRows : List (List GoValue)
  scanErr : Option String
  iterErr : Option String

/-- Outcome of `go_ora.WrapRefCursor` for one cursor-typed output
parameter: an error, a `nil` `*sql.Rows`, or a live row set. -/
inductive WrapOutcome where
  | wrapErr (e : String)
  | wrapNil
  | wrapRows (rs : RowsSpec)

/-- Abstraction of the database.  `execErr` is the result of the one
`ExecContext` call; on success the `write…` fields give, per parameter name,
what the driver wrote into the destination of the corresponding shape
(`writeFloat p = none` models `sql.NullFloat64{Valid: false}`, and so on);
`cursor` gives the `WrapRefCursor` outcome per cursor parameter name. -/
structure DbEnv where
  execErr : Option String
  writeFloat : String → Option ℚ
  writeString : String → Option String
  writeTime : String → Option Int
  writeBool : String → Bool
  writeBytes : String → String
  writeAny : String → GoValue
  cursor : String → WrapOutcome

/-- Value recorded in the invocation result for one output parameter: either
a scalar (`val`, with `val .vNull` the explicit null) or a materialized
cursor row set (an ordered sequence of row mappings). -/
inductive OutValue where
  | val (v : GoValue)
  | rows (rs : List (List (String × GoValue)))
deriving DecidableEq, Repr

/-- Presentation conversion applied to each scanned cell inside
`processRowsResult`: byte slices become strings, `time.Time` values are
formatted with `time.RFC3339`, everything else passes through. -/
def convCell (lib : GoLib) : GoValue → GoValue
  | .vBytes b => .vStr b
  | .vTime t => .vStr (lib.fmtTime t)
  | v => v

/-- Construction of one `rowMap` in `processRowsResult`: the Go loop
`for i, colName := range cols { rowMap[colName] = … columns[i] … }` over a
map, modelled by prepending each insertion onto an accumulator so that
`List.lookup` sees the latest write for a column name first. -/
def mkRowMapAux (lib : GoLib) (acc : List (String × GoValue)) :
    List String → List GoValue → List (String × GoValue)
  | [], _ => acc
  | _, [] => acc
  | c :: cs, v :: vs => mkRowMapAux lib ((c, convCell lib v) :: acc) cs vs

/-- Row mapping for one fetched row, starting from the empty map. -/
def mkRowMap (lib : GoLib) (cols : List String) (row : List GoValue) :
    List (String × GoValue) :=
  mkRowMapAux lib [] cols row

/-- Accumulating loop of `processRowsResult`
(`allRows = append(allRows, rowMap)`). -/
def rowsLoop (lib : GoLib) (cols : List String) (acc : List (List (String × GoValue))) :
    List (List GoValue) → List (List (String × GoValue))
  | [] => acc
  | row :: rest => rowsLoop lib cols (acc ++ [mkRowMap lib cols row]) rest

/-- Translation of `OracleRepository.processRowsResult`.  The deferred
`rows.Close()` runs on every exit path, so every outcome carries the single
`rowsClosed` event; column-fetch, scan and iteration failures abort with the
Go error texts, discarding the rows accumulated so far. -/
def processRowsResult (lib : GoLib) (rs : RowsSpec) :
    Except String (List (List (String × GoValue))) × List Event :=
  let body : Except String (List (List (String × GoValue))) :=
    match rs.colsErr with
    | some e => .error ("failed to get columns: " ++ e)
    | none =>
      match rs.scanErr with
      | some e => .error ("scan failed: " ++ e)
      | none =>
        match rs.iterErr with
        | some e => .error ("rows iteration error: " ++ e)
        | none => .ok (rowsLoop lib rs.cols [] rs.goodRows)
  (body, [.rowsClosed])

/-- Translation of `OracleRepository.processOutputParameters` (go-ora
version), with the result map as a latest-write-first association list.
For each parameter that is not `IN`: a missing `outputParams` entry is
skipped; a cursor-typed parameter whose destination really is a
`go_ora.RefCursor` is wrapped (`env.cursor`) and materialized, while a failed
type assertion is skipped; otherwise the destination shape is read back, the
nullable shapes recording an explicit null when the `Valid` flag is down.  A
destination of cursor shape reaching the non-cursor `switch` matches no case
and produces no entry. -/
def processOutputParameters (env : DbEnv) (lib : GoLib) (outMap : List (String × DestKind))
    (acc : List (String × OutValue)) :
    List ProcedureParam → Except String (List (String × OutValue)) × List Event
  | [] => (.ok acc, [])
  | p :: rest =>
    if strToUpper p.Direction = "IN" then
      processOutputParameters env lib outMap acc rest
    else
      match outMap.lookup p.Name with
      | none => processOutputParameters env lib outMap acc rest
      | some k =>
        if isCursorType p.Typ then
          if k = .dCursor then
            match env.cursor p.Name with
            | .wrapErr e =>
              (.error ("failed to wrap REF CURSOR for parameter " ++ p.Name ++ ": " ++ e), [])
            | .wrapNil =>
              processOutputParameters env lib outMap ((p.Name, .val .vNull) :: acc) rest
            | .wrapRows rs =>
              match processRowsResult lib rs with
              | (.error e, ev) =>
                (.error ("failed to process REF CURSOR for parameter " ++ p.Name ++ ": " ++ e),
                  .rowsAcquired :: ev)
              | (.ok rws, ev) =>
                let next := processOutputParameters env lib outMap
                  ((p.Name, .rows rws) :: acc) rest
                (next.1, (.rowsAcquired :: ev) ++ next.2)
          else
            processOutputParameters env lib outMap acc rest
        else
          match k with
          | .dCursor => processOutputParameters env lib outMap acc rest
          | .nFloat =>
            let v := match env.writeFloat p.Name with
              | some q => OutValue.val (.vFloat q)
              | none => OutValue.val .vNull
            processOutputParameters env lib outMap ((p.Name, v) :: acc) rest
          | .nString =>
            let v := match env.writeString p.Name with
              | some s => OutValue.val (.vStr s)
              | none => OutValue.val .vNull
            processOutputParameters env lib outMap ((p.Name, v) :: acc) rest
          | .nTime =>
            let v := match env.writeTime p.Name with
              | some t => OutValue.val (.vTime t)
              | none => OutValue.val .vNull
            processOutputParameters env lib outMap ((p.Name, v) :: acc) rest
          | .dBool =>
            processOutputParameters env lib outMap
              ((p.Name, .val (.vBool (env.writeBool p.Name))) :: acc) rest
          | .dBytes =>
            processOutputParameters env lib outMap
              ((p.Name, .val (.vBytes (env.writeBytes p.Name))) :: acc) rest
          | .dAny =>
            processOutputParameters env lib outMap
              ((p.Name, .val (env.writeAny p.Name)) :: acc) rest

/-- Translation of `OracleRepository.CallProcedure` (go-ora version): bind
all parameters (any configuration error returns before any database
interaction), build the anonymous block, execute it once, and on success
normalize the output destinations.  The second component is the event
trace. -/
def CallProcedure (env : DbEnv) (lib : GoLib) (name : String)
    (params : List ProcedureParam) :
    Except String (List (String × OutValue)) × List Event :=
  match bindParams lib params with
  | .error e => (.error e, [])
  | .ok (_, outMap) =>
    let query := buildQuery name params
    match env.execErr with
    | some e => (.error ("execution failed for procedure '" ++ name ++ "': " ++ e), [.exec query])
    | none =>
      let res := processOutputParameters env lib outMap [] params
      (res.1, .exec query :: res.2)

/-- One raw row of the `ALL_ARGUMENTS` catalog query in `GetProcedureInfo`,
as scanned into `sql.NullString`/`sql.NullInt64` destinations (`none` = SQL
NULL). -/
structure InfoRow where
  argName : Option String
  dataType : Option String
  inOut : Option String
  position : Option Int
  defaultValue : Option String

/-- Behaviour of the catalog query backing `GetProcedureInfo`: a query
error, the successfully scanned rows in order, and an optional scan failure
on the following row. -/
structure InfoEnv where
  queryErr : Option String
  rows : List InfoRow
  scanErr : Option String

/-- Field access `NullString.String` after `Scan`: the empty string when the
column was SQL NULL. -/
def nullStringStr (o : Option String) : String := o.getD ""

/-- Field access `NullInt64.Int64` after `Scan`: `0` when NULL. -/
def nullInt64Int64 (o : Option Int) : Int := o.getD 0

/-- Row mapping built for one catalog row by `GetProcedureInfo`. -/
def infoRowMap (r : InfoRow) : List (String × GoValue) :=
  [("argument_name", .vStr (nullStringStr r.argName)),
   ("data_type", .vStr (nullStringStr r.dataType)),
   ("in_out", .vStr (nullStringStr r.inOut)),
   ("position", .vInt64 (nullInt64Int64 r.position)),
   ("default_value", .vStr (nullStringStr r.defaultValue))]

/-- Accumulating loop of `GetProcedureInfo`
(`result = append(result, row)` over `rows.Next()`). -/
def infoLoop (acc : List (List (String × GoValue))) :
    List InfoRow → List (List (String × GoValue))
  | [] => acc
  | r :: rest => infoLoop (acc ++ [infoRowMap r]) rest

/-- Translation of `OracleRepository.GetProcedureInfo` (identical in both
revisions of the repository file): query the catalog, scan each row into
nullable destinations, and publish every column through its zero-defaulting
field accessor.  A `nil` result slice with a `nil` error is modelled as
`.ok []`.  (The Go code never consults `rows.Err()` here.) -/
def GetProcedureInfo (env : InfoEnv) : Except String (List (List (String × GoValue))) :=
  match env.queryErr with
  | some e => .error ("failed to query procedure info: " ++ e)
  | none =>
    match env.scanErr with
    | some e => .error ("scan failed: " ++ e)
    | none => .ok (infoLoop [] env.rows)

/-- Test `strings.TrimSpace(s) == ""` used throughout
`CallProcedureRequest.Validate` (Lean's `Char.isWhitespace` stands in for
`unicode.IsSpace`; all strings of interest here are ASCII). -/
def blank (s : String) : Bool := s.data.all Char.isWhitespace

/-- Per-parameter body of the `Validate` loop at index `i`. -/
def validateParam (i : Nat) (p : ProcedureParam) : Option String :=
  if ¬ blank p.Name ∨ ¬ blank p.Typ ∨ ¬ blank p.Direction then
    if blank p.Name then
      some ("param[" ++ toString i ++ "] name is required")
    else if blank p.Typ then
      some ("param[" ++ toString i ++ "] type is required")
    else if blank p.Direction then
      some ("param[" ++ toString i ++ "] direction is required")
    else
      none
  else
    none

/-- Indexed loop of `Validate` over `r.Params`, returning the first error. -/
def validateLoop (i : Nat) : List ProcedureParam → Option String
  | [] => none
  | p :: rest =>
    match validateParam i p with
    | some e => some e
    | none => validateLoop (i + 1) rest

/-- Translation of `CallProcedureRequest.Validate`: `some msg` models a
non-nil error. -/
def Validate (r : CallProcedureRequest) : Option String :=
  if blank r.Name then
    some "procedure name is required"
  else
    validateLoop 0 r.Params

/-- Decision that `sub` is a leading segment of `s` (character lists). -/
def charsPrefixEq : List Char → List Char → Bool
  | [], _ => true
  | _ :: _, [] => false
  | a :: as, b :: bs => a = b && charsPrefixEq as bs

/-- Decision that `sub` occurs contiguously inside `s` (character lists). -/
def charsHasSub (sub : List Char) : List Char → Bool
  | [] => charsPrefixEq sub []
  | c :: t => charsPrefixEq sub (c :: t) || charsHasSub sub t

/-- Decision that string `sub` occurs contiguously inside string `s`; used to
state that an error message names a parameter or direction. -/
def strHasSub (sub s : String) : Bool := charsHasSub sub.data s.data

/-- Specification-side rendering of the placeholder list, following the
spec's words: one placeholder per parameter, in input order, each
referencing the parameter's own name, comma-separated. -/
def specPlaceholders : List ProcedureParam → String
  | [] => ""
  | [p] => ":" ++ p.Name
  | p :: q :: rest => ":" ++ p.Name ++ ", " ++ specPlaceholders (q :: rest)

/-- Concrete standard-library instantiation used by the witness theorems. -/
def libW : GoLib where
  parseFloat := fun _ => none
  parseRFC3339 := fun _ => none
  fmtTime := fun t => "1970-01-01T00:00:" ++ toString t ++ "Z"
  sprintf := fun v =>
    match v with
    | .vStr s => s
    | _ => "?"

/-- Concrete database environment for witness theorems: execution succeeds,
numeric destinations receive 7, string destinations "ok", cursors resolve to
`nil`. -/
def envW : DbEnv where
  execErr := none
  writeFloat := fun _ => some 7
  writeString := fun _ => some "ok"
  writeTime := fun _ => some 0
  writeBool := fun _ => false
  writeBytes := fun _ => ""
  writeAny := fun _ => .vNull
  cursor := fun _ => .wrapNil

/-- Database environment whose cursor wrapping fails. -/
def envWrapFail : DbEnv :=
  { envW with cursor := fun _ => .wrapErr "ORA-01001: invalid cursor" }

/-- Direction strings handled by the `switch` in `CallProcedure`: the
case-insensitive matches of IN, OUT and INOUT. -/
def validDirection (p : ProcedureParam) : Prop :=
  strToUpper p.Direction = "IN" ∨ strToUpper p.Direction = "OUT" ∨
    strToUpper p.Direction = "INOUT"

/-- Two parameters that agree on name, type and value and whose direction
strings differ at most in letter case. -/
def paramEquiv (a b : ProcedureParam) : Prop :=
  a.Name = b.Name ∧ a.Typ = b.Typ ∧ a.Value = b.Value ∧
    strToUpper a.Direction = strToUpper b.Direction

/-- Shape of the `outputParams` entry that binding stores for a non-IN
parameter: the cursor handle for cursor-typed parameters, otherwise the
destination chosen by `createOutputParameter`. -/
def destKindOf (p : ProcedureParam) : DestKind :=
  if isCursorType p.Typ then .dCursor else createOutputParameter p

/-- Test for the row-set acquisition event. -/
def isAcquireEvent : Event → Bool
  | .rowsAcquired => true
  | _ => false

/-- Test for the row-set release event. -/
def isCloseEvent : Event → Bool
  | .rowsClosed => true
  | _ => false

/-- Every acquired row-set resource in a trace has been released. -/
def balancedTrace (tr : List Event) : Prop :=
  tr.countP isAcquireEvent = tr.countP isCloseEvent

example :
    convertInputValue ⟨fun _ => none, fun _ => none, fun _ => "", fun _ => ""⟩
      ⟨"b", "BOOLEAN", .vFloat 0, "IN"⟩ = .vBool true := by decide

example :
    convertInputValue ⟨fun _ => none, fun _ => none, fun _ => "", fun _ => ""⟩
      ⟨"n", "NUMBER", .vStr "abc", "IN"⟩ = .vStr "abc" := by decide

lemma charsPrefixEq_append (l t : List Char) : charsPrefixEq l (l ++ t) = true := by
  induction l with
  | nil => rfl
  | cons a as ih => simp [charsPrefixEq, ih]

lemma charsHasSub_of_prefix (sub s : List Char) (h : charsPrefixEq sub s = true) :
    charsHasSub sub s = true := by
  cases s with
  | nil => simpa [charsHasSub] using h
  | cons c t => simp [charsHasSub, h]

lemma charsHasSub_cons (sub : List Char) (c : Char) (t : List Char)
    (h : charsHasSub sub t = true) : charsHasSub sub (c :: t) = true := by
  simp [charsHasSub, h]

lemma charsHasSub_append_left (pre sub post : List Char) :
    charsHasSub sub (pre ++ (sub ++ post)) = true := by
  induction pre with
  | nil => exact charsHasSub_of_prefix _ _ (charsPrefixEq_append sub post)
  | cons c cs ih => exact charsHasSub_cons _ _ _ ih

lemma strHasSub_append (a sub b : String) : strHasSub sub (a ++ sub ++ b) = true := by
  have h : (a ++ sub ++ b).data = a.data ++ (sub.data ++ b.data) := by
    simp [String.data_append]
  simpa [strHasSub, h] using charsHasSub_append_left a.data sub.data b.data

lemma strFoldl_append_init (l : List String) :
    ∀ a b : String, l.foldl (· ++ ·) (a ++ b) = a ++ l.foldl (· ++ ·) b := by
  induction l with
  | nil => intro a b; rfl
  | cons x xs ih =>
    intro a b
    show xs.foldl (· ++ ·) (a ++ b ++ x) = a ++ xs.foldl (· ++ ·) (b ++ x)
    rw [String.append_assoc, ih]

lemma strFoldl_pull (l : List String) (a : String) :
    l.foldl (· ++ ·) a = a ++ l.foldl (· ++ ·) "" := by
  have h := strFoldl_append_init l a ""
  rwa [String.append_empty] at h

lemma placeholderConcat_single (p : ProcedureParam) :
    placeholderConcat [p] = ":" ++ p.Name := by
  show ":" ++ p.Name ++ ([] : List String).foldl (· ++ ·) "" = ":" ++ p.Name
  exact String.append_empty _

lemma placeholderConcat_cons (p q : ProcedureParam) (rest : List ProcedureParam) :
    placeholderConcat (p :: q :: rest) =
      ":" ++ p.Name ++ ", " ++ placeholderConcat (q :: rest) := by
  show ":" ++ p.Name ++
      (((", :" ++ q.Name) :: rest.map (fun x => ", :" ++ x.Name)).foldl (· ++ ·) "") =
    ":" ++ p.Name ++ ", " ++
      (":" ++ q.Name ++ (rest.map (fun x => ", :" ++ x.Name)).foldl (· ++ ·) "")
  have h1 : ((", :" ++ q.Name) :: rest.map (fun x => ", :" ++ x.Name)).foldl (· ++ ·) "" =
      (rest.map (fun x => ", :" ++ x.Name)).foldl (· ++ ·) (", :" ++ q.Name) := by
    show (rest.map (fun x => ", :" ++ x.Name)).foldl (· ++ ·) ("" ++ (", :" ++ q.Name)) = _
    rw [String.empty_append]
  rw [h1, strFoldl_pull]
  simp only [String.append_assoc]
  congr 1

lemma placeholderConcat_eq_spec (params : List ProcedureParam) :
    placeholderConcat params = specPlaceholders params := by
  match params with
  | [] => rfl
  | [p] => exact placeholderConcat_single p
  | p :: q :: rest =>
    have ih := placeholderConcat_eq_spec (q :: rest)
    rw [placeholderConcat_cons, ih]
    rfl

/-- C7: the Invoker builds a single anonymous block with exactly one named
placeholder per parameter, in input order, each placeholder referencing that
parameter's own name (`specPlaceholders` spells out this specification
reading); for an empty parameter list the block has an empty placeholder
list and the bound-argument list is empty, and a successful zero-parameter
call returns an empty result mapping. -/
theorem C7_anonymous_block_and_empty_call (env : DbEnv) (lib : GoLib) (name : String)
    (params : List ProcedureParam) (hexec : env.execErr = none) :
    buildQuery name params =
      "BEGIN " ++ name ++ "(" ++ specPlaceholders params ++ "); END;" ∧
    buildQuery name [] = "BEGIN " ++ name ++ "(" ++ "" ++ "); END;" ∧
    bindParams lib [] = .ok ([], []) ∧
    CallProcedure env lib name [] = (.ok [], [.exec (buildQuery name [])]) := by
  refine ⟨?_, rfl, rfl, ?_⟩
  · rw [buildQuery, placeholderConcat_eq_spec]
  · simp [CallProcedure, bindParams, hexec, processOutputParameters]

/-- C7 witness: a zero-parameter call against the concrete environment. -/
theorem C7_witness :
    CallProcedure envW libW "no_op" [] = (.ok [], [.exec (buildQuery "no_op" [])]) :=
  (C7_anonymous_block_and_empty_call envW libW "no_op" [] rfl).2.2.2

/-- C6: evaluation of the embedded Binder at the inputs where the code
diverges from the claimed BOOLEAN conversion.  The claim (and the spec) say a
zero numeric value converts to `false`, but Go's
`case int, int64, float64: return v != 0` compares interfaces, so `int64(0)`
and `float64(0)` (the type every JSON number decodes to) convert to `true`;
only plain `int(0)` gives `false`.  The remaining conjuncts record the
branches the code does implement as claimed. -/
theorem C6_boolean_zero_numeric_divergence :
    convertInputValue libW ⟨"flag", "BOOLEAN", .vFloat 0, "IN"⟩ = .vBool true ∧
    convertInputValue libW ⟨"flag", "BOOLEAN", .vInt64 0, "IN"⟩ = .vBool true ∧
    convertInputValue libW ⟨"flag", "BOOLEAN", .vInt 0, "IN"⟩ = .vBool false ∧
    convertInputValue libW ⟨"flag", "BOOLEAN", .vBool true, "IN"⟩ = .vBool true ∧
    convertInputValue libW ⟨"flag", "BOOLEAN", .vStr "TRUE", "IN"⟩ = .vBool true ∧
    convertInputValue libW ⟨"flag", "BOOLEAN", .vStr "1", "IN"⟩ = .vBool true ∧
    convertInputValue libW ⟨"flag", "BOOLEAN", .vStr "yes", "IN"⟩ = .vBool false ∧
    convertInputValue libW ⟨"flag", "BOOLEAN", .vInt 3, "IN"⟩ = .vBool true ∧
    convertInputValue libW ⟨"flag", "BOOLEAN", .vNull, "IN"⟩ = .vBool false := by
  decide

/-- C5: for an IN parameter of numeric declared type whose value is a
string, the Binder attempts a float parse; on success the parsed number is
bound, on failure the original string passes through unchanged, and the
bind step for such a parameter always succeeds (errors can only come from
the direction dispatch, never from value conversion). -/
theorem C5_numeric_string_best_effort (lib : GoLib) (p : ProcedureParam) (s : String)
    (hty : strToUpper p.Typ = "NUMBER" ∨ strToUpper p.Typ = "INTEGER" ∨
      strToUpper p.Typ = "FLOAT" ∨ strToUpper p.Typ = "DOUBLE")
    (hdir : strToUpper p.Direction = "IN")
    (hv : p.Value = .vStr s) :
    (lib.parseFloat s = none → convertInputValue lib p = .vStr s) ∧
    (∀ q, lib.parseFloat s = some q → convertInputValue lib p = .vFloat q) ∧
    bindParams lib [p] = .ok ([(p.Name, .inArg (convertInputValue lib p))], []) := by
  have hcond : strToUpper p.Typ = "NUMBER" ∨ strToUpper p.Typ = "INTEGER" ∨
      strToUpper p.Typ = "INT" ∨ strToUpper p.Typ = "FLOAT" ∨ strToUpper p.Typ = "DOUBLE" := by
    tauto
  refine ⟨?_, ?_, ?_⟩
  · intro hpf
    rw [convertInputValue, if_pos hcond, hv]
    simp [hpf]
  · intro q hpf
    rw [convertInputValue, if_pos hcond, hv]
    simp [hpf]
  · simp [bindParams, hdir]

/-- C5 witness: the spec's `"not-a-number"` scenario, with a parse function
that fails on it, and a successful parse alongside. -/
theorem C5_witness :
    convertInputValue libW ⟨"n", "NUMBER", .vStr "not-a-number", "IN"⟩ = .vStr "not-a-number" ∧
    bindParams libW [⟨"n", "NUMBER", .vStr "not-a-number", "IN"⟩] =
      .ok ([("n", .inArg (.vStr "not-a-number"))], []) := by
  have h := C5_numeric_string_best_effort libW ⟨"n", "NUMBER", .vStr "not-a-number", "IN"⟩
    "not-a-number" (by decide) (by decide) rfl
  have h1 := h.1 rfl
  exact ⟨h1, by rw [h.2.2, h1]⟩

lemma validateParam_none_iff (i : Nat) (p : ProcedureParam) :
    validateParam i p = none ↔
      ((blank p.Name = true ∧ blank p.Typ = true ∧ blank p.Direction = true) ∨
       (blank p.Name = false ∧ blank p.Typ = false ∧ blank p.Direction = false)) := by
  by_cases h1 : blank p.Name <;> by_cases h2 : blank p.Typ <;>
    by_cases h3 : blank p.Direction <;> simp [validateParam, h1, h2, h3]

lemma validateParam_some (i : Nat) (p : ProcedureParam) (e : String)
    (h : validateParam i p = some e) :
    (blank p.Name = true ∨ blank p.Typ = true ∨ blank p.Direction = true) ∧
    (blank p.Name = false ∨ blank p.Typ = false ∨ blank p.Direction = false) ∧
    (e = "param[" ++ toString i ++ "] name is required" ∨
     e = "param[" ++ toString i ++ "] type is required" ∨
     e = "param[" ++ toString i ++ "] direction is required") := by
  by_cases h1 : blank p.Name <;> by_cases h2 : blank p.Typ <;>
    by_cases h3 : blank p.Direction <;>
    simp [validateParam, h1, h2, h3] at h <;> simp [h1, h2, h3, h]

lemma validateLoop_none_iff (ps : List ProcedureParam) : ∀ i,
    validateLoop i ps = none ↔ ∀ p ∈ ps,
      ((blank p.Name = true ∧ blank p.Typ = true ∧ blank p.Direction = true) ∨
       (blank p.Name = false ∧ blank p.Typ = false ∧ blank p.Direction = false)) := by
  induction ps with
  | nil => intro i; simp [validateLoop]
  | cons p rest ih =>
    intro i
    cases h : validateParam i p with
    | some e =>
      have hv : validateLoop i (p :: rest) = some e := by simp [validateLoop, h]
      rw [hv]
      constructor
      · intro hc; exact absurd hc (by simp)
      · intro hall
        have hnone := (validateParam_none_iff i p).mpr (hall p (by simp))
        rw [h] at hnone
        exact Option.noConfusion hnone
    | none =>
      have hp := (validateParam_none_iff i p).mp h
      simp [validateLoop, h, ih (i + 1), hp]

lemma validateLoop_some (ps : List ProcedureParam) : ∀ i e,
    validateLoop i ps = some e →
    ∃ (j : Nat) (p : ProcedureParam), ps[j]? = some p ∧ validateParam (i + j) p = some e := by
  induction ps with
  | nil => intro i e h; simp [validateLoop] at h
  | cons p rest ih =>
    intro i e h
    cases hp : validateParam i p with
    | some e1 =>
      refine ⟨0, p, by simp, ?_⟩
      simp [validateLoop, hp] at h
      simpa [h] using hp
    | none =>
      simp [validateLoop, hp] at h
      obtain ⟨j, q, hq, hv⟩ := ih (i + 1) e h
      refine ⟨j + 1, q, by simpa using hq, ?_⟩
      have harith : i + 1 + j = i + (j + 1) := by omega
      rwa [harith] at hv

/-- C9: `CallProcedureRequest.Validate` accepts a parameter entry whose
name, type and direction are all blank; it returns a per-field error exactly
when some parameter mixes blank and non-blank fields (the error naming the
field and index of the first such parameter); and a blank procedure name
always errors. -/
theorem C9_validate_blank_rules (r : CallProcedureRequest) :
    (blank r.Name = true → Validate r = some "procedure name is required") ∧
    (Validate r = none ↔ (blank r.Name = false ∧ ∀ p ∈ r.Params,
      ((blank p.Name = true ∧ blank p.Typ = true ∧ blank p.Direction = true) ∨
       (blank p.Name = false ∧ blank p.Typ = false ∧ blank p.Direction = false)))) ∧
    (∀ e, Validate r = some e → blank r.Name = false →
      ∃ (j : Nat) (p : ProcedureParam), r.Params[j]? = some p ∧
        (blank p.Name = true ∨ blank p.Typ = true ∨ blank p.Direction = true) ∧
        (blank p.Name = false ∨ blank p.Typ = false ∨ blank p.Direction = false) ∧
        (e = "param[" ++ toString j ++ "] name is required" ∨
         e = "param[" ++ toString j ++ "] type is required" ∨
         e = "param[" ++ toString j ++ "] direction is required")) := by
  refine ⟨?_, ?_, ?_⟩
  · intro h; simp [Validate, h]
  · cases hb : blank r.Name with
    | true => simp [Validate, hb]
    | false => simp [Validate, hb, validateLoop_none_iff r.Params 0]
  · intro e he hb
    rw [Validate, if_neg (by simp [hb])] at he
    obtain ⟨j, p, hp, hv⟩ := validateLoop_some r.Params 0 e he
    have hps := validateParam_some (0 + j) p e hv
    rw [Nat.zero_add] at hps
    exact ⟨j, p, hp, hps⟩

/-- C9 witness: an all-blank parameter entry passes validation; a blank
procedure name always errors; a mixed entry produces the per-field error. -/
theorem C9_witness :
    Validate ⟨"proc", [⟨"", " ", .vNull, ""⟩]⟩ = none ∧
    Validate ⟨"  ", []⟩ = some "procedure name is required" ∧
    (∃ (j : Nat) (p : ProcedureParam), [ProcedureParam.mk "x" "" .vNull ""][j]? = some p ∧
      (blank p.Name = true ∨ blank p.Typ = true ∨ blank p.Direction = true) ∧
      (blank p.Name = false ∨ blank p.Typ = false ∨ blank p.Direction = false)) := by
  refine ⟨?_, ?_, ?_⟩
  · refine (C9_validate_blank_rules ⟨"proc", [⟨"", " ", .vNull, ""⟩]⟩).2.1.mpr ⟨by decide, ?_⟩
    intro p hp
    simp at hp
    subst hp
    decide
  · exact (C9_validate_blank_rules ⟨"  ", []⟩).1 (by decide)
  · obtain ⟨j, p, hp, h1, h2, _⟩ := (C9_validate_blank_rules ⟨"p", [⟨"x", "", .vNull, ""⟩]⟩).2.2
      "param[0] type is required" (by decide) (by decide)
    exact ⟨j, p, hp, h1, h2⟩

lemma infoLoop_eq (l : List InfoRow) : ∀ acc,
    infoLoop acc l = acc ++ l.map infoRowMap := by
  induction l with
  | nil => intro acc; simp [infoLoop]
  | cons r rest ih => intro acc; simp [infoLoop, ih]

/-- C10: `GetProcedureInfo` never records null in its output rows — SQL NULL
catalog columns surface as the zero value of their nullable scanner (empty
string for the four text columns, `0` for `position`) — and an empty catalog
result set yields an empty sequence with no error rather than a not-found
error. -/
theorem C10_info_zero_values_and_empty (env : InfoEnv)
    (hq : env.queryErr = none) (hs : env.scanErr = none) :
    GetProcedureInfo env = .ok (env.rows.map infoRowMap) ∧
    (∀ row ∈ env.rows.map infoRowMap, ∀ kv ∈ row, kv.2 ≠ GoValue.vNull) ∧
    (env.rows.map infoRowMap).length = env.rows.length ∧
    (∀ r : InfoRow, r.argName = none →
      (infoRowMap r).lookup "argument_name" = some (.vStr "")) ∧
    (∀ r : InfoRow, r.dataType = none →
      (infoRowMap r).lookup "data_type" = some (.vStr "")) ∧
    (∀ r : InfoRow, r.inOut = none →
      (infoRowMap r).lookup "in_out" = some (.vStr "")) ∧
    (∀ r : InfoRow, r.position = none →
      (infoRowMap r).lookup "position" = some (.vInt64 0)) ∧
    (∀ r : InfoRow, r.defaultValue = none →
      (infoRowMap r).lookup "default_value" = some (.vStr "")) ∧
    (env.rows = [] → GetProcedureInfo env = .ok []) := by
  have hmain : GetProcedureInfo env = .ok (env.rows.map infoRowMap) := by
    simp [GetProcedureInfo, hq, hs, infoLoop_eq]
  refine ⟨hmain, ?_, by simp, ?_, ?_, ?_, ?_, ?_, ?_⟩
  · intro row hrow kv hkv
    simp only [List.mem_map] at hrow
    obtain ⟨r, _, hr⟩ := hrow
    subst hr
    simp [infoRowMap] at hkv
    rcases hkv with h | h | h | h | h <;> simp [h]
  · intro r h; simp [infoRowMap, nullStringStr, h, List.lookup]
  · intro r h; simp [infoRowMap, nullStringStr, h, List.lookup]
  · intro r h; simp [infoRowMap, nullStringStr, h, List.lookup]
  · intro r h; simp [infoRowMap, nullInt64Int64, h, List.lookup]
  · intro r h; simp [infoRowMap, nullStringStr, h, List.lookup]
  · intro h; rw [hmain, h]; rfl

/-- C10 witness: a catalog with one all-NULL row and an empty catalog. -/
theorem C10_witness :
    GetProcedureInfo ⟨none, [⟨none, none, none, none, none⟩], none⟩ =
      .ok [[("argument_name", .vStr ""), ("data_type", .vStr ""), ("in_out", .vStr ""),
            ("position", .vInt64 0), ("default_value", .vStr "")]] ∧
    GetProcedureInfo ⟨none, [], none⟩ = .ok [] := by
  constructor
  · exact (C10_info_zero_values_and_empty ⟨none, [⟨none, none, none, none, none⟩], none⟩
      rfl rfl).1
  · exact (C10_info_zero_values_and_empty ⟨none, [], none⟩ rfl rfl).2.2.2.2.2.2.2.2 rfl

lemma bindParams_cursor_inout (lib : GoLib) (params : List ProcedureParam)
    (p : ProcedureParam) (hp : p ∈ params) (hc : isCursorType p.Typ = true)
    (hd : strToUpper p.Direction = "INOUT") :
    ∃ e, bindParams lib params = .error e ∧
      (e = "REF CURSOR cannot be used as INOUT parameter" ∨
       ∃ d, e = "unsupported parameter direction: " ++ d) := by
  induction params with
  | nil => cases hp
  | cons q rest ih =>
    by_cases h1 : strToUpper q.Direction = "IN"
    · have hpr : p ∈ rest := by
        rcases List.mem_cons.mp hp with h | h
        · subst h; rw [hd] at h1; exact absurd h1 (by decide)
        · exact h
      obtain ⟨e, he, hcfg⟩ := ih hpr
      exact ⟨e, by simp [bindParams, h1, he], hcfg⟩
    · by_cases h2 : strToUpper q.Direction = "OUT"
      · have hpr : p ∈ rest := by
          rcases List.mem_cons.mp hp with h | h
          · subst h; rw [hd] at h2; exact absurd h2 (by decide)
          · exact h
        obtain ⟨e, he, hcfg⟩ := ih hpr
        exact ⟨e, by simp [bindParams, h1, h2, he], hcfg⟩
      · by_cases h3 : strToUpper q.Direction = "INOUT"
        · by_cases h4 : isCursorType q.Typ
          · exact ⟨"REF CURSOR cannot be used as INOUT parameter",
              by simp [bindParams, h1, h2, h3, h4], Or.inl rfl⟩
          · have hpr : p ∈ rest := by
              rcases List.mem_cons.mp hp with h | h
              · subst h; exact absurd hc (by simpa using h4)
              · exact h
            obtain ⟨e, he, hcfg⟩ := ih hpr
            exact ⟨e, by simp [bindParams, h1, h2, h3, h4, he], hcfg⟩
        · exact ⟨"unsupported parameter direction: " ++ q.Direction,
            by simp [bindParams, h1, h2, h3], Or.inr ⟨q.Direction, rfl⟩⟩

/-- C2: a parameter of REF-CURSOR declared type (the code's spellings
`REF CURSOR` / `SYS_REFCURSOR`, case-insensitively) with direction `INOUT`
makes `CallProcedure` fail during binding with a configuration error — the
dedicated REF-CURSOR/INOUT message, or the unsupported-direction message if
an earlier parameter fails the direction check first — and the event trace
stays empty: no statement is ever executed against the database. -/
theorem C2_refcursor_inout_config_error (env : DbEnv) (lib : GoLib) (name : String)
    (params : List ProcedureParam) (p : ProcedureParam) (hp : p ∈ params)
    (hc : isCursorType p.Typ = true) (hd : strToUpper p.Direction = "INOUT") :
    ∃ e, CallProcedure env lib name params = (.error e, []) ∧
      (e = "REF CURSOR cannot be used as INOUT parameter" ∨
       ∃ d, e = "unsupported parameter direction: " ++ d) := by
  obtain ⟨e, he, hcfg⟩ := bindParams_cursor_inout lib params p hp hc hd
  exact ⟨e, by simp [CallProcedure, he], hcfg⟩

/-- C2 witness: an INOUT `SYS_REFCURSOR` parameter against the concrete
environment. -/
theorem C2_witness :
    ∃ e, CallProcedure envW libW "report" [⟨"cur", "SYS_REFCURSOR", .vNull, "INOUT"⟩] =
        (.error e, []) ∧
      (e = "REF CURSOR cannot be used as INOUT parameter" ∨
       ∃ d, e = "unsupported parameter direction: " ++ d) :=
  C2_refcursor_inout_config_error envW libW "report"
    [⟨"cur", "SYS_REFCURSOR", .vNull, "INOUT"⟩]
    ⟨"cur", "SYS_REFCURSOR", .vNull, "INOUT"⟩ (by simp) (by decide) (by decide)

section LookupHelpers

variable {β : Type}

lemma lookup_cons_self (n : String) (w : β) (l : List (String × β)) :
    List.lookup n ((n, w) :: l) = some w := by
  simp [List.lookup]

lemma lookup_cons_ne (n m : String) (w : β) (l : List (String × β)) (h : n ≠ m) :
    List.lookup n ((m, w) :: l) = List.lookup n l := by
  have hb : (n == m) = false := beq_eq_false_iff_ne.mpr h
  simp [List.lookup, hb]

lemma lookup_append_some {l1 l2 : List (String × β)} {n : String} {v : β}
    (h : l1.lookup n = some v) : (l1 ++ l2).lookup n = some v := by
  induction l1 with
  | nil => simp [List.lookup] at h
  | cons kv l ih =>
    obtain ⟨k, w⟩ := kv
    by_cases hk : n = k
    · subst hk
      rw [lookup_cons_self] at h
      rw [List.cons_append, lookup_cons_self]
      exact h
    · rw [lookup_cons_ne _ _ _ _ hk] at h
      rw [List.cons_append, lookup_cons_ne _ _ _ _ hk]
      exact ih h

lemma lookup_append_none {l1 l2 : List (String × β)} {n : String}
    (h : l1.lookup n = none) : (l1 ++ l2).lookup n = l2.lookup n := by
  induction l1 with
  | nil => simp
  | cons kv l ih =>
    obtain ⟨k, w⟩ := kv
    by_cases hk : n = k
    · subst hk
      rw [lookup_cons_self] at h
      exact absurd h (by simp)
    · rw [lookup_cons_ne _ _ _ _ hk] at h
      rw [List.cons_append, lookup_cons_ne _ _ _ _ hk]
      exact ih h

lemma lookup_none_of_keys {l : List (String × β)} {n : String}
    (h : ∀ kv ∈ l, kv.1 ≠ n) : l.lookup n = none := by
  induction l with
  | nil => simp
  | cons kv l ih =>
    obtain ⟨k, w⟩ := kv
    have hne : n ≠ k := fun he => h (k, w) (by simp) (by simp [he])
    rw [lookup_cons_ne _ _ _ _ hne]
    exact ih (fun x hx => h x (by simp [hx]))

lemma lookup_isSome_cons {l : List (String × β)} {n : String} (m : String) (w : β)
    (h : (l.lookup n).isSome) : (List.lookup n ((m, w) :: l)).isSome := by
  by_cases hk : n = m
  · subst hk; simp [lookup_cons_self]
  · rwa [lookup_cons_ne _ _ _ _ hk]

end LookupHelpers

lemma convertInputValue_equiv (lib : GoLib) {a b : ProcedureParam}
    (ht : a.Typ = b.Typ) (hv : a.Value = b.Value) :
    convertInputValue lib a = convertInputValue lib b := by
  obtain ⟨n1, t1, v1, d1⟩ := a
  obtain ⟨n2, t2, v2, d2⟩ := b
  simp only at ht hv
  subst ht; subst hv
  rfl

lemma createOutputParameter_equiv {a b : ProcedureParam} (ht : a.Typ = b.Typ) :
    createOutputParameter a = createOutputParameter b := by
  obtain ⟨n1, t1, v1, d1⟩ := a
  obtain ⟨n2, t2, v2, d2⟩ := b
  simp only at ht
  subst ht
  rfl

lemma bindParams_equiv (lib : GoLib) {ps qs : List ProcedureParam}
    (hfor : List.Forall₂ paramEquiv ps qs) (hval : ∀ q ∈ ps, validDirection q) :
    bindParams lib ps = bindParams lib qs := by
  induction hfor with
  | nil => rfl
  | cons hab hrest ih =>
    rename_i a b as bs
    obtain ⟨hn, ht, hv, hd⟩ := hab
    have ihr := ih (fun q hq => hval q (by simp [hq]))
    rcases hval a (by simp) with h | h | h
    · have hb : strToUpper b.Direction = "IN" := hd.symm.trans h
      simp only [bindParams, if_pos h, if_pos hb, ihr, hn,
        convertInputValue_equiv lib ht hv]
    · have hb : strToUpper b.Direction = "OUT" := hd.symm.trans h
      have hin : ¬ strToUpper a.Direction = "IN" := by rw [h]; decide
      have hinb : ¬ strToUpper b.Direction = "IN" := by rw [hb]; decide
      simp only [bindParams, if_neg hin, if_neg hinb, if_pos h, if_pos hb, ihr, hn, ht,
        createOutputParameter_equiv ht]
    · have hb : strToUpper b.Direction = "INOUT" := hd.symm.trans h
      have hin : ¬ strToUpper a.Direction = "IN" := by rw [h]; decide
      have hinb : ¬ strToUpper b.Direction = "IN" := by rw [hb]; decide
      have hout : ¬ strToUpper a.Direction = "OUT" := by rw [h]; decide
      have houtb : ¬ strToUpper b.Direction = "OUT" := by rw [hb]; decide
      simp only [bindParams, if_neg hin, if_neg hinb, if_neg hout, if_neg houtb,
        if_pos h, if_pos hb, ihr, hn, ht, createOutputParameter_equiv ht,
        convertInputValue_equiv lib ht hv]

lemma placeholderConcat_equiv {ps qs : List ProcedureParam}
    (hfor : List.Forall₂ paramEquiv ps qs) :
    placeholderConcat ps = placeholderConcat qs := by
  induction hfor with
  | nil => rfl
  | cons hab hrest ih =>
    rename_i a b as bs
    cases hrest with
    | nil => simp [placeholderConcat_single, hab.1]
    | cons hab2 hrest2 =>
      rename_i x y xs ys
      rw [placeholderConcat_cons, placeholderConcat_cons, hab.1, ih]

lemma processOutputParameters_equiv (env : DbEnv) (lib : GoLib)
    (outMap : List (String × DestKind)) {ps qs : List ProcedureParam}
    (hfor : List.Forall₂ paramEquiv ps qs) : ∀ acc,
    processOutputParameters env lib outMap acc ps =
      processOutputParameters env lib outMap acc qs := by
  induction hfor with
  | nil => intro acc; rfl
  | cons hab hrest ih =>
    intro acc
    rename_i a b as bs
    obtain ⟨hn, ht, hv, hd⟩ := hab
    simp only [processOutputParameters, hn, ht, hd, ih]

lemma CallProcedure_equiv (env : DbEnv) (lib : GoLib) (name : String)
    {ps qs : List ProcedureParam} (hfor : List.Forall₂ paramEquiv ps qs)
    (hval : ∀ q ∈ ps, validDirection q) :
    CallProcedure env lib name ps = CallProcedure env lib name qs := by
  have hb := bindParams_equiv lib hfor hval
  have hq : buildQuery name ps = buildQuery name qs := by
    rw [buildQuery, buildQuery, placeholderConcat_equiv hfor]
  simp only [CallProcedure, hb, hq]
  cases bindParams lib qs with
  | error e => rfl
  | ok pair =>
    cases env.execErr with
    | some e => rfl
    | none => simp only [processOutputParameters_equiv env lib pair.2 hfor]

lemma bindParams_first_invalid (lib : GoLib) (p : ProcedureParam)
    (rest : List ProcedureParam) (hp : ¬ validDirection p) : ∀ pre : List ProcedureParam,
    (∀ q ∈ pre, validDirection q ∧
      ¬ (isCursorType q.Typ = true ∧ strToUpper q.Direction = "INOUT")) →
    bindParams lib (pre ++ p :: rest) =
      .error ("unsupported parameter direction: " ++ p.Direction) := by
  intro pre
  induction pre with
  | nil =>
    intro _
    rw [validDirection] at hp
    push_neg at hp
    obtain ⟨h1, h2, h3⟩ := hp
    simp [bindParams, h1, h2, h3]
  | cons q pre ih =>
    intro hpre
    have hq := hpre q (by simp)
    have ihr := ih (fun x hx => hpre x (by simp [hx]))
    rcases hq.1 with h | h | h
    · simp [bindParams, h, ihr]
    · have hin : ¬ strToUpper q.Direction = "IN" := by rw [h]; decide
      simp [bindParams, hin, h, ihr]
    · have hin : ¬ strToUpper q.Direction = "IN" := by rw [h]; decide
      have hout : ¬ strToUpper q.Direction = "OUT" := by rw [h]; decide
      have hcur : ¬ isCursorType q.Typ = true := fun hc => hq.2 ⟨hc, h⟩
      simp [bindParams, hin, hout, h, hcur, ihr]

/-- C4 counterexample to the claim as stated: with two parameters carrying
the invalid directions `BAD1` and `BAD2`, the single returned error names
only the first one; the claim's "for every parameter … an error that names
that exact direction string" fails for the second. -/
theorem C4_counterexample :
    CallProcedure envW libW "f"
        [⟨"a", "NUMBER", .vNull, "BAD1"⟩, ⟨"b", "NUMBER", .vNull, "BAD2"⟩] =
      (.error "unsupported parameter direction: BAD1", []) ∧
    strHasSub "BAD2" "unsupported parameter direction: BAD1" = false := by
  constructor
  · rfl
  · decide

/-- C4 (amended): any direction failing the case-insensitive IN/OUT/INOUT
match aborts the call before any database interaction (empty event trace),
with an error naming the exact direction string of the first parameter whose
direction check fails, provided no earlier parameter triggers the
REF-CURSOR/INOUT configuration error; and parameter lists whose valid
direction strings differ only in letter case are treated identically. -/
theorem C4_unsupported_direction_first_offender (env : DbEnv) (lib : GoLib)
    (name : String) (pre rest : List ProcedureParam) (p : ProcedureParam)
    (hpre : ∀ q ∈ pre, validDirection q ∧
      ¬ (isCursorType q.Typ = true ∧ strToUpper q.Direction = "INOUT"))
    (hp : ¬ validDirection p) :
    (CallProcedure env lib name (pre ++ p :: rest) =
      (.error ("unsupported parameter direction: " ++ p.Direction), []) ∧
     strHasSub p.Direction ("unsupported parameter direction: " ++ p.Direction) = true) ∧
    (∀ ps qs : List ProcedureParam, List.Forall₂ paramEquiv ps qs →
      (∀ q ∈ ps, validDirection q) →
      CallProcedure env lib name ps = CallProcedure env lib name qs) := by
  refine ⟨⟨?_, ?_⟩, ?_⟩
  · have hb := bindParams_first_invalid lib p rest hp pre hpre
    simp [CallProcedure, hb]
  · have h := strHasSub_append "unsupported parameter direction: " p.Direction ""
    rwa [String.append_empty] at h
  · intro ps qs hfor hval
    exact CallProcedure_equiv env lib name hfor hval

/-- C4 witness: the empty direction string (the test suite's
`unsupported parameter direction: ` case) as first offender, and `"in"`
versus `"IN"` giving identical calls. -/
theorem C4_witness :
    CallProcedure envW libW "f" [⟨"a", "NUMBER", .vNull, ""⟩] =
      (.error ("unsupported parameter direction: " ++ ""), []) ∧
    CallProcedure envW libW "f" [⟨"x", "NUMBER", .vFloat 1, "in"⟩] =
      CallProcedure envW libW "f" [⟨"x", "NUMBER", .vFloat 1, "IN"⟩] := by
  have h := C4_unsupported_direction_first_offender envW libW "f" [] []
    ⟨"a", "NUMBER", .vNull, ""⟩ (by simp) (by unfold validDirection; decide)
  refine ⟨by simpa using h.1.1, ?_⟩
  exact h.2 [⟨"x", "NUMBER", .vFloat 1, "in"⟩] [⟨"x", "NUMBER", .vFloat 1, "IN"⟩]
    (List.Forall₂.cons ⟨rfl, rfl, rfl, by decide⟩ List.Forall₂.nil)
    (by intro q hq; simp at hq; subst hq; unfold validDirection; left; decide)

lemma createOutputParameter_ne_cursor (p : ProcedureParam) :
    createOutputParameter p ≠ .dCursor := by
  unfold createOutputParameter
  split_ifs <;> simp

lemma bindParams_outMap_sub (lib : GoLib) : ∀ (params : List ProcedureParam) args outMap,
    bindParams lib params = .ok (args, outMap) →
    ∀ kv ∈ outMap, ∃ p, p ∈ params ∧ strToUpper p.Direction ≠ "IN" ∧ p.Name = kv.1 := by
  intro params
  induction params with
  | nil =>
    intro args outMap h kv hkv
    simp [bindParams] at h
    rw [h.2] at hkv
    cases hkv
  | cons q rest ih =>
    intro args outMap h kv hkv
    by_cases h1 : strToUpper q.Direction = "IN"
    · cases hrest : bindParams lib rest with
      | error e => simp [bindParams, h1, hrest] at h
      | ok pr =>
        simp [bindParams, h1, hrest] at h
        rw [← h.2] at hkv
        obtain ⟨p, hp, hpd, hpn⟩ := ih pr.1 pr.2 (by rw [hrest]) kv hkv
        exact ⟨p, by simp [hp], hpd, hpn⟩
    · by_cases h2 : strToUpper q.Direction = "OUT"
      · cases hrest : bindParams lib rest with
        | error e => simp [bindParams, h1, h2, hrest] at h
        | ok pr =>
          simp [bindParams, h1, h2, hrest] at h
          rw [← h.2] at hkv
          rcases List.mem_append.mp hkv with hin | hin
          · obtain ⟨p, hp, hpd, hpn⟩ := ih pr.1 pr.2 (by rw [hrest]) kv hin
            exact ⟨p, by simp [hp], hpd, hpn⟩
          · refine ⟨q, by simp, by rw [h2]; decide, ?_⟩
            simp only [List.mem_singleton] at hin
            rw [hin]
      · by_cases h3 : strToUpper q.Direction = "INOUT"
        · by_cases h4 : isCursorType q.Typ
          · simp [bindParams, h1, h2, h3, h4] at h
          · cases hrest : bindParams lib rest with
            | error e => simp [bindParams, h1, h2, h3, h4, hrest] at h
            | ok pr =>
              simp [bindParams, h1, h2, h3, h4, hrest] at h
              rw [← h.2] at hkv
              rcases List.mem_append.mp hkv with hin | hin
              · obtain ⟨p, hp, hpd, hpn⟩ := ih pr.1 pr.2 (by rw [hrest]) kv hin
                exact ⟨p, by simp [hp], hpd, hpn⟩
              · refine ⟨q, by simp, by rw [h3]; decide, ?_⟩
                simp only [List.mem_singleton] at hin
                rw [hin]
        · simp [bindParams, h1, h2, h3] at h

lemma bindParams_outMap_lookup (lib : GoLib) : ∀ (params : List ProcedureParam) args outMap,
    bindParams lib params = .ok (args, outMap) →
    (params.map ProcedureParam.Name).Nodup →
    ∀ p ∈ params, strToUpper p.Direction ≠ "IN" →
      outMap.lookup p.Name = some (destKindOf p) := by
  intro params
  induction params with
  | nil => intro args outMap h hnd p hp; cases hp
  | cons q rest ih =>
    intro args outMap h hnd p hp hpd
    have hnd1 : q.Name ∉ rest.map ProcedureParam.Name := by
      simp only [List.map_cons, List.nodup_cons] at hnd
      exact hnd.1
    have hnd2 : (rest.map ProcedureParam.Name).Nodup := by
      simp only [List.map_cons, List.nodup_cons] at hnd
      exact hnd.2
    by_cases h1 : strToUpper q.Direction = "IN"
    · cases hrest : bindParams lib rest with
      | error e => simp [bindParams, h1, hrest] at h
      | ok pr =>
        simp [bindParams, h1, hrest] at h
        rcases List.mem_cons.mp hp with he | hin
        · subst he; exact absurd h1 hpd
        · rw [← h.2]
          exact ih pr.1 pr.2 (by rw [hrest]) hnd2 p hin hpd
    · have hsplit : ∀ (k : DestKind) pr, bindParams lib rest = .ok pr →
          pr.2 ++ [(q.Name, k)] = outMap →
          (p = q → k = destKindOf q → outMap.lookup p.Name = some (destKindOf p)) ∧
          (p ∈ rest → outMap.lookup p.Name = some (destKindOf p)) := by
        intro k pr hrest hout
        constructor
        · intro he hk
          subst he
          rw [← hout, hk]
          have hnone : pr.2.lookup p.Name = none := by
            apply lookup_none_of_keys
            intro kv hkv
            obtain ⟨r, hr, _, hrn⟩ := bindParams_outMap_sub lib rest pr.1 pr.2
              (by rw [hrest]) kv hkv
            intro hcon
            exact hnd1 (by rw [← hcon, ← hrn]; exact List.mem_map_of_mem _ hr)
          rw [lookup_append_none hnone, lookup_cons_self]
        · intro hin
          rw [← hout]
          exact lookup_append_some (ih pr.1 pr.2 (by rw [hrest]) hnd2 p hin hpd)
      by_cases h2 : strToUpper q.Direction = "OUT"
      · cases hrest : bindParams lib rest with
        | error e => simp [bindParams, h1, h2, hrest] at h
        | ok pr =>
          simp [bindParams, h1, h2, hrest] at h
          have hs := hsplit _ pr hrest h.2
          rcases List.mem_cons.mp hp with he | hin
          · exact hs.1 he (by rw [destKindOf])
          · exact hs.2 hin
      · by_cases h3 : strToUpper q.Direction = "INOUT"
        · by_cases h4 : isCursorType q.Typ
          · simp [bindParams, h1, h2, h3, h4] at h
          · cases hrest : bindParams lib rest with
            | error e => simp [bindParams, h1, h2, h3, h4, hrest] at h
            | ok pr =>
              simp [bindParams, h1, h2, h3, h4, hrest] at h
              have hs := hsplit _ pr hrest h.2
              rcases List.mem_cons.mp hp with he | hin
              · exact hs.1 he (by rw [destKindOf, if_neg h4])
              · exact hs.2 hin
        · simp [bindParams, h1, h2, h3] at h

lemma bindParams_outMap_lookup_in (lib : GoLib) (params : List ProcedureParam)
    (args : List (String × BoundArg)) (outMap : List (String × DestKind))
    (h : bindParams lib params = .ok (args, outMap))
    (hnd : (params.map ProcedureParam.Name).Nodup)
    (p : ProcedureParam) (hp : p ∈ params) (hpd : strToUpper p.Direction = "IN") :
    outMap.lookup p.Name = none := by
  apply lookup_none_of_keys
  intro kv hkv
  obtain ⟨r, hr, hrd, hrn⟩ := bindParams_outMap_sub lib params args outMap h kv hkv
  intro hcon
  have : r = p := List.inj_on_of_nodup_map hnd hr hp (by rw [hrn, hcon])
  subst this
  exact hrd hpd

lemma processOut_ok_props (env : DbEnv) (lib : GoLib) (outMap : List (String × DestKind)) :
    ∀ (params : List ProcedureParam) (acc res : List (String × OutValue)) (tr : List Event),
    processOutputParameters env lib outMap acc params = (.ok res, tr) →
    (∀ n : String, (∀ q ∈ params, strToUpper q.Direction = "IN" ∨ q.Name ≠ n) →
      res.lookup n = acc.lookup n) ∧
    (∀ n : String, (acc.lookup n).isSome → (res.lookup n).isSome) ∧
    (∀ p ∈ params, strToUpper p.Direction ≠ "IN" →
      outMap.lookup p.Name = some (destKindOf p) → (res.lookup p.Name).isSome) := by
  intro params
  induction params with
  | nil =>
    intro acc res tr h
    simp [processOutputParameters] at h
    refine ⟨fun n _ => by rw [h.1], fun n hn => by rw [h.1] at hn; exact hn,
      fun p hp => absurd hp (by simp)⟩
  | cons p rest ih =>
    intro acc res tr h
    have hskip : ∀ tr1, processOutputParameters env lib outMap acc rest = (.ok res, tr1) →
        (∀ n : String, (∀ q ∈ p :: rest, strToUpper q.Direction = "IN" ∨ q.Name ≠ n) →
          res.lookup n = acc.lookup n) ∧
        (∀ n : String, (acc.lookup n).isSome → (res.lookup n).isSome) ∧
        (∀ p' ∈ rest, strToUpper p'.Direction ≠ "IN" →
          outMap.lookup p'.Name = some (destKindOf p') → (res.lookup p'.Name).isSome) := by
      intro tr1 h1
      obtain ⟨A, B, C⟩ := ih acc res tr1 h1
      exact ⟨fun n hq => A n (fun q hqr => hq q (by simp [hqr])), B, C⟩
    have hstep : ∀ (v : OutValue) tr1,
        processOutputParameters env lib outMap ((p.Name, v) :: acc) rest = (.ok res, tr1) →
        (∀ n : String, (∀ q ∈ p :: rest, strToUpper q.Direction = "IN" ∨ q.Name ≠ n) →
          strToUpper p.Direction ≠ "IN" →
          res.lookup n = acc.lookup n) ∧
        (∀ n : String, (acc.lookup n).isSome → (res.lookup n).isSome) ∧
        ((res.lookup p.Name).isSome ∧
         ∀ p' ∈ rest, strToUpper p'.Direction ≠ "IN" →
          outMap.lookup p'.Name = some (destKindOf p') → (res.lookup p'.Name).isSome) := by
      intro v tr1 h1
      obtain ⟨A, B, C⟩ := ih ((p.Name, v) :: acc) res tr1 h1
      refine ⟨?_, ?_, ?_, C⟩
      · intro n hq hpd
        have hne : n ≠ p.Name := by
          rcases hq p (by simp) with hdq | hdq
          · exact absurd hdq hpd
          · exact fun he => hdq he.symm
        rw [A n (fun q hqr => hq q (by simp [hqr])), lookup_cons_ne _ _ _ _ hne]
      · intro n hn
        exact B n (lookup_isSome_cons _ _ hn)
      · apply B
        rw [lookup_cons_self]
        rfl
    have hentry : ∀ (v : OutValue) tr1,
        processOutputParameters env lib outMap ((p.Name, v) :: acc) rest = (.ok res, tr1) →
        strToUpper p.Direction ≠ "IN" →
        (∀ n : String, (∀ q ∈ p :: rest, strToUpper q.Direction = "IN" ∨ q.Name ≠ n) →
          res.lookup n = acc.lookup n) ∧
        (∀ n : String, (acc.lookup n).isSome → (res.lookup n).isSome) ∧
        (∀ p' ∈ p :: rest, strToUpper p'.Direction ≠ "IN" →
          outMap.lookup p'.Name = some (destKindOf p') → (res.lookup p'.Name).isSome) := by
      intro v tr1 h1 hpd
      obtain ⟨A, B, ⟨Cp, C⟩⟩ := hstep v tr1 h1
      refine ⟨fun n hq => A n hq hpd, B, ?_⟩
      intro p' hp' hd' hlk'
      rcases List.mem_cons.mp hp' with he | hin
      · subst he; exact Cp
      · exact C p' hin hd' hlk'
    by_cases hd : strToUpper p.Direction = "IN"
    · rw [processOutputParameters, if_pos hd] at h
      obtain ⟨A, B, C⟩ := hskip tr h
      refine ⟨A, B, ?_⟩
      intro p' hp' hd' hlk'
      rcases List.mem_cons.mp hp' with he | hin
      · subst he; exact absurd hd hd'
      · exact C p' hin hd' hlk'
    · rw [processOutputParameters, if_neg hd] at h
      cases hlk : outMap.lookup p.Name with
      | none =>
        rw [hlk] at h
        dsimp only at h
        obtain ⟨A, B, C⟩ := hskip tr h
        refine ⟨A, B, ?_⟩
        intro p' hp' hd' hlk'
        rcases List.mem_cons.mp hp' with he | hin
        · subst he; rw [hlk] at hlk'; cases hlk'
        · exact C p' hin hd' hlk'
      | some k =>
        rw [hlk] at h
        dsimp only at h
        by_cases hcur : isCursorType p.Typ = true
        · rw [if_pos hcur] at h
          by_cases hk : k = DestKind.dCursor
          · rw [if_pos hk] at h
            cases hcw : env.cursor p.Name with
            | wrapErr e => rw [hcw] at h; simp at h
            | wrapNil =>
              rw [hcw] at h
              dsimp only at h
              exact hentry (.val .vNull) tr h hd
            | wrapRows rs =>
              rw [hcw] at h
              dsimp only at h
              cases hpr : processRowsResult lib rs with
              | mk body ev =>
                rw [hpr] at h
                cases body with
                | error e => simp at h
                | ok rws =>
                  dsimp only at h
                  cases hnext : processOutputParameters env lib outMap
                      ((p.Name, OutValue.rows rws) :: acc) rest with
                  | mk r1 r2 =>
                    rw [hnext] at h
                    dsimp only at h
                    simp only [Prod.mk.injEq] at h
                    exact hentry (.rows rws) r2 (by rw [hnext, h.1]) hd
          · rw [if_neg hk] at h
            obtain ⟨A, B, C⟩ := hskip tr h
            refine ⟨A, B, ?_⟩
            intro p' hp' hd' hlk'
            rcases List.mem_cons.mp hp' with he | hin
            · subst he
              rw [hlk] at hlk'
              have hkd : k = destKindOf p' := by injection hlk'
              rw [destKindOf, if_pos hcur] at hkd
              exact absurd hkd hk
            · exact C p' hin hd' hlk'
        · rw [if_neg hcur] at h
          cases k with
          | dCursor =>
            dsimp only at h
            obtain ⟨A, B, C⟩ := hskip tr h
            refine ⟨A, B, ?_⟩
            intro p' hp' hd' hlk'
            rcases List.mem_cons.mp hp' with he | hin
            · subst he
              rw [hlk] at hlk'
              have hkd : DestKind.dCursor = destKindOf p' := by injection hlk'
              rw [destKindOf, if_neg hcur] at hkd
              exact absurd hkd.symm (createOutputParameter_ne_cursor p')
            · exact C p' hin hd' hlk'
          | nFloat => exact hentry _ tr h hd
          | nString => exact hentry _ tr h hd
          | nTime => exact hentry _ tr h hd
          | dBool => exact hentry _ tr h hd
          | dBytes => exact hentry _ tr h hd
          | dAny => exact hentry _ tr h hd

/-- C1 (amended): when the parameter names are pairwise distinct, every
successful `CallProcedure` result has an entry (scalar, row sequence, or
explicit null — the three `OutValue` shapes) for every parameter whose
direction is not `IN` case-insensitively, and no entry keyed by the name of
any `IN` parameter. -/
theorem C1_result_entries (env : DbEnv) (lib : GoLib) (name : String)
    (params : List ProcedureParam) (res : List (String × OutValue)) (tr : List Event)
    (hnd : (params.map ProcedureParam.Name).Nodup)
    (hcall : CallProcedure env lib name params = (.ok res, tr)) :
    (∀ p ∈ params, strToUpper p.Direction ≠ "IN" → (res.lookup p.Name).isSome) ∧
    (∀ p ∈ params, strToUpper p.Direction = "IN" → res.lookup p.Name = none) := by
  rw [CallProcedure] at hcall
  cases hbind : bindParams lib params with
  | error e => rw [hbind] at hcall; simp at hcall
  | ok pr =>
    obtain ⟨args, outMap⟩ := pr
    rw [hbind] at hcall
    dsimp only at hcall
    cases hexec : env.execErr with
    | some e => rw [hexec] at hcall; simp at hcall
    | none =>
      rw [hexec] at hcall
      dsimp only at hcall
      cases hpo : processOutputParameters env lib outMap [] params with
      | mk r1 r2 =>
        rw [hpo] at hcall
        dsimp only at hcall
        simp only [Prod.mk.injEq] at hcall
        obtain ⟨A, B, C⟩ := processOut_ok_props env lib outMap params [] res r2
          (by rw [hpo, hcall.1])
        constructor
        · intro p hp hpd
          exact C p hp hpd
            (bindParams_outMap_lookup lib params args outMap hbind hnd p hp hpd)
        · intro p hp hpd
          have := A p.Name ?_
          · rw [this]; rfl
          · intro q hq
            by_cases hqe : q.Name = p.Name
            · have : q = p := List.inj_on_of_nodup_map hnd hq hp hqe
              subst this
              exact Or.inl hpd
            · exact Or.inr hqe

/-- C1 counterexample to the claim as stated: with the duplicate name `x`
borne by an OUT parameter and an IN parameter, the successful result keys
`x` — the name of an IN-direction parameter — violating "contains no entry
keyed by the name of any parameter whose direction is IN". -/
theorem C1_counterexample :
    CallProcedure envW libW "f"
        [⟨"x", "NUMBER", .vNull, "OUT"⟩, ⟨"x", "VARCHAR2", .vStr "v", "IN"⟩] =
      (.ok [("x", OutValue.val (.vFloat 7))], [.exec "BEGIN f(:x, :x); END;"]) ∧
    List.lookup "x" [("x", OutValue.val (.vFloat 7))] ≠ none := by
  exact ⟨rfl, by simp⟩

/-- C1 witness: the spec's `add_employee` scenario — `emp_name` is IN and
absent from the result, `emp_id` is OUT and present. -/
theorem C1_witness :
    (List.lookup "emp_id" [("emp_id", OutValue.val (.vFloat 7))]).isSome = true ∧
    List.lookup "emp_name" [("emp_id", OutValue.val (.vFloat 7))] = none := by
  have h := C1_result_entries envW libW "add_employee"
    [⟨"emp_name", "VARCHAR2", .vStr "Alice", "IN"⟩, ⟨"emp_id", "NUMBER", .vNull, "OUT"⟩]
    [("emp_id", OutValue.val (.vFloat 7))]
    [.exec "BEGIN add_employee(:emp_name, :emp_id); END;"]
    (by decide) rfl
  exact ⟨h.1 ⟨"emp_id", "NUMBER", .vNull, "OUT"⟩ (by simp) (by decide),
         h.2 ⟨"emp_name", "VARCHAR2", .vStr "Alice", "IN"⟩ (by simp) (by decide)⟩

lemma rowsLoop_eq (lib : GoLib) (cols : List String) :
    ∀ (l : List (List GoValue)) (acc : List (List (String × GoValue))),
    rowsLoop lib cols acc l = acc ++ l.map (mkRowMap lib cols) := by
  intro l
  induction l with
  | nil => intro acc; simp [rowsLoop]
  | cons r rest ih => intro acc; simp [rowsLoop, ih]

lemma mkRowMapAux_lookup_skip (lib : GoLib) :
    ∀ (cols : List String) (row : List GoValue) (acc : List (String × GoValue)) (c : String),
    c ∉ cols → List.lookup c (mkRowMapAux lib acc cols row) = List.lookup c acc := by
  intro cols
  induction cols with
  | nil => intro row acc c _; cases row <;> rfl
  | cons c0 cs ih =>
    intro row acc c hc
    cases row with
    | nil => rfl
    | cons v0 vs =>
      have hcs : c ∉ cs := fun hm => hc (by simp [hm])
      have hc0 : c ≠ c0 := fun he => hc (by simp [he])
      rw [mkRowMapAux, ih vs _ c hcs, lookup_cons_ne _ _ _ _ hc0]

lemma mkRowMapAux_lookup (lib : GoLib) :
    ∀ (cols : List String) (row : List GoValue) (acc : List (String × GoValue)),
    cols.Nodup →
    ∀ (j : Nat) (c : String) (v : GoValue), cols[j]? = some c → row[j]? = some v →
    List.lookup c (mkRowMapAux lib acc cols row) = some (convCell lib v) := by
  intro cols
  induction cols with
  | nil => intro row acc _ j c v hc _; simp at hc
  | cons c0 cs ih =>
    intro row acc hnd j c v hc hv
    cases row with
    | nil => simp at hv
    | cons v0 vs =>
      simp only [List.map_cons, List.nodup_cons] at hnd
      cases j with
      | zero =>
        simp at hc hv
        subst hc; subst hv
        rw [mkRowMapAux, mkRowMapAux_lookup_skip lib cs vs _ c0 hnd.1,
          lookup_cons_self]
      | succ j =>
        simp at hc hv
        rw [mkRowMapAux]
        exact ih vs _ hnd.2 j c v hc hv

lemma mkRowMapAux_keys (lib : GoLib) :
    ∀ (cols : List String) (row : List GoValue) (acc : List (String × GoValue)) (c : String),
    row.length = cols.length →
    ((List.lookup c (mkRowMapAux lib acc cols row)).isSome ↔
      c ∈ cols ∨ (List.lookup c acc).isSome) := by
  intro cols
  induction cols with
  | nil =>
    intro row acc c hlen
    cases row with
    | nil => simp [mkRowMapAux]
    | cons v0 vs => simp at hlen
  | cons c0 cs ih =>
    intro row acc c hlen
    cases row with
    | nil => simp at hlen
    | cons v0 vs =>
      simp only [List.length_cons, Nat.succ.injEq] at hlen
      rw [mkRowMapAux, ih vs _ c hlen]
      by_cases hc : c = c0
      · subst hc; simp [lookup_cons_self]
      · rw [lookup_cons_ne _ _ _ _ hc]
        simp [hc]

/-- C3: a cursor result materialized by `processRowsResult` preserves source
row order (the output is exactly the in-order image of the fetched rows) and
the column-name set of each row mapping; byte-sequence cells surface as
their textual decoding, temporal cells as RFC-3339-formatted strings, and
every other cell passes through unchanged. -/
theorem C3_rows_materialization (lib : GoLib) (rs : RowsSpec)
    (h1 : rs.colsErr = none) (h2 : rs.scanErr = none) (h3 : rs.iterErr = none)
    (hlen : ∀ r ∈ rs.goodRows, r.length = rs.cols.length)
    (hnd : rs.cols.Nodup) :
    processRowsResult lib rs =
      (.ok (rs.goodRows.map (mkRowMap lib rs.cols)), [.rowsClosed]) ∧
    (rs.goodRows.map (mkRowMap lib rs.cols)).length = rs.goodRows.length ∧
    (∀ r ∈ rs.goodRows, ∀ c : String,
      ((mkRowMap lib rs.cols r).lookup c).isSome ↔ c ∈ rs.cols) ∧
    (∀ r ∈ rs.goodRows, ∀ (j : Nat) (c : String) (v : GoValue),
      rs.cols[j]? = some c → r[j]? = some v →
      (mkRowMap lib rs.cols r).lookup c = some (convCell lib v)) ∧
    (∀ b, convCell lib (.vBytes b) = .vStr b) ∧
    (∀ t, convCell lib (.vTime t) = .vStr (lib.fmtTime t)) ∧
    (∀ v : GoValue, (∀ b, v ≠ .vBytes b) → (∀ t, v ≠ .vTime t) → convCell lib v = v) := by
  refine ⟨?_, by simp, ?_, ?_, fun b => rfl, fun t => rfl, ?_⟩
  · rw [processRowsResult, h1, h2, h3]
    dsimp only
    rw [rowsLoop_eq]
    rfl
  · intro r hr c
    have h := mkRowMapAux_keys lib rs.cols r [] c (hlen r hr)
    simpa [mkRowMap] using h
  · intro r hr j c v hc hv
    exact mkRowMapAux_lookup lib rs.cols r [] hnd j c v hc hv
  · intro v hb ht
    cases v with
    | vBytes b => exact absurd rfl (hb b)
    | vTime t => exact absurd rfl (ht t)
    | vNull => rfl
    | vBool b => rfl
    | vInt n => rfl
    | vInt64 n => rfl
    | vFloat q => rfl
    | vStr s => rfl

/-- C3 witness: one row with a byte-sequence, a temporal and a numeric cell,
each rendered per the claim. -/
theorem C3_witness :
    processRowsResult libW ⟨none, ["a", "b", "c"], [[.vBytes "hi", .vTime 5, .vInt 9]],
        none, none⟩ =
      (.ok [[("c", .vInt 9), ("b", .vStr "1970-01-01T00:00:5Z"), ("a", .vStr "hi")]],
        [.rowsClosed]) := by
  have h := C3_rows_materialization libW
    ⟨none, ["a", "b", "c"], [[.vBytes "hi", .vTime 5, .vInt 9]], none, none⟩
    rfl rfl rfl (by decide) (by decide)
  exact h.1

lemma processOut_trace_balanced (env : DbEnv) (lib : GoLib)
    (outMap : List (String × DestKind)) : ∀ (params : List ProcedureParam) acc,
    balancedTrace (processOutputParameters env lib outMap acc params).2 := by
  intro params
  induction params with
  | nil => intro acc; simp [processOutputParameters, balancedTrace]
  | cons p rest ih =>
    intro acc
    by_cases hd : strToUpper p.Direction = "IN"
    · rw [processOutputParameters, if_pos hd]; exact ih acc
    · rw [processOutputParameters, if_neg hd]
      cases hlk : outMap.lookup p.Name with
      | none => dsimp only; exact ih acc
      | some k =>
        dsimp only
        by_cases hcur : isCursorType p.Typ = true
        · rw [if_pos hcur]
          by_cases hk : k = DestKind.dCursor
          · rw [if_pos hk]
            cases hcw : env.cursor p.Name with
            | wrapErr e => dsimp only; simp [balancedTrace]
            | wrapNil => dsimp only; exact ih _
            | wrapRows rs =>
              dsimp only
              cases hpr : processRowsResult lib rs with
              | mk body ev =>
                have hev : ev = [.rowsClosed] := by
                  have h2 : (processRowsResult lib rs).2 = [.rowsClosed] := rfl
                  rw [hpr] at h2
                  exact h2
                cases body with
                | error e =>
                  dsimp only
                  subst hev
                  simp [balancedTrace, isAcquireEvent, isCloseEvent]
                | ok rws =>
                  dsimp only
                  subst hev
                  have hb := ih ((p.Name, OutValue.rows rws) :: acc)
                  rw [balancedTrace] at hb ⊢
                  simp only [List.countP_cons, List.countP_append, isAcquireEvent,
                    isCloseEvent, List.countP_nil] at hb ⊢
                  omega
          · rw [if_neg hk]; exact ih acc
        · rw [if_neg hcur]
          cases k with
          | dCursor => dsimp only; exact ih acc
          | nFloat => dsimp only; exact ih _
          | nString => dsimp only; exact ih _
          | nTime => dsimp only; exact ih _
          | dBool => dsimp only; exact ih _
          | dBytes => dsimp only; exact ih _
          | dAny => dsimp only; exact ih _

lemma processOut_error_names (env : DbEnv) (lib : GoLib)
    (outMap : List (String × DestKind)) : ∀ (params : List ProcedureParam) acc e tr,
    processOutputParameters env lib outMap acc params = (.error e, tr) →
    ∃ p ∈ params, strToUpper p.Direction ≠ "IN" ∧ strHasSub p.Name e = true := by
  intro params
  induction params with
  | nil => intro acc e tr h; simp [processOutputParameters] at h
  | cons p rest ih =>
    intro acc e tr h
    have hlift : (∃ q ∈ rest, strToUpper q.Direction ≠ "IN" ∧ strHasSub q.Name e = true) →
        ∃ q ∈ p :: rest, strToUpper q.Direction ≠ "IN" ∧ strHasSub q.Name e = true := by
      rintro ⟨q, hq, hqd, hqs⟩
      exact ⟨q, by simp [hq], hqd, hqs⟩
    by_cases hd : strToUpper p.Direction = "IN"
    · rw [processOutputParameters, if_pos hd] at h
      exact hlift (ih acc e tr h)
    · rw [processOutputParameters, if_neg hd] at h
      cases hlk : outMap.lookup p.Name with
      | none =>
        rw [hlk] at h
        dsimp only at h
        exact hlift (ih acc e tr h)
      | some k =>
        rw [hlk] at h
        dsimp only at h
        by_cases hcur : isCursorType p.Typ = true
        · rw [if_pos hcur] at h
          by_cases hk : k = DestKind.dCursor
          · rw [if_pos hk] at h
            cases hcw : env.cursor p.Name with
            | wrapErr e0 =>
              rw [hcw] at h
              dsimp only at h
              simp only [Prod.mk.injEq, Except.error.injEq] at h
              refine ⟨p, by simp, hd, ?_⟩
              have heq : e = "failed to wrap REF CURSOR for parameter " ++ p.Name ++
                  (": " ++ e0) := by
                rw [← h.1, String.append_assoc]
              rw [heq]
              exact strHasSub_append _ _ _
            | wrapNil =>
              rw [hcw] at h
              dsimp only at h
              exact hlift (ih _ e tr h)
            | wrapRows rs =>
              rw [hcw] at h
              dsimp only at h
              cases hpr : processRowsResult lib rs with
              | mk body ev =>
                rw [hpr] at h
                cases body with
                | error e1 =>
                  dsimp only at h
                  simp only [Prod.mk.injEq, Except.error.injEq] at h
                  refine ⟨p, by simp, hd, ?_⟩
                  have heq : e = "failed to process REF CURSOR for parameter " ++ p.Name ++
                      (": " ++ e1) := by
                    rw [← h.1, String.append_assoc]
                  rw [heq]
                  exact strHasSub_append _ _ _
                | ok rws =>
                  dsimp only at h
                  cases hnext : processOutputParameters env lib outMap
                      ((p.Name, OutValue.rows rws) :: acc) rest with
                  | mk r1 r2 =>
                    rw [hnext] at h
                    dsimp only at h
                    simp only [Prod.mk.injEq] at h
                    exact hlift (ih _ e r2 (by rw [hnext, h.1]))
          · rw [if_neg hk] at h
            exact hlift (ih acc e tr h)
        · rw [if_neg hcur] at h
          cases k with
          | dCursor => dsimp only at h; exact hlift (ih acc e tr h)
          | nFloat => dsimp only at h; exact hlift (ih _ e tr h)
          | nString => dsimp only at h; exact hlift (ih _ e tr h)
          | nTime => dsimp only at h; exact hlift (ih _ e tr h)
          | dBool => dsimp only at h; exact hlift (ih _ e tr h)
          | dBytes => dsimp only at h; exact hlift (ih _ e tr h)
          | dAny => dsimp only at h; exact hlift (ih _ e tr h)

/-- C8: whenever binding and execution succeed but result processing fails
(scan, iteration or cursor-wrap failure), `CallProcedure` surfaces an error
whose message contains the offending (non-IN) parameter's name; and on every
exit path — success or error — each row-set resource acquired during result
processing has a matching release in the event trace. -/
theorem C8_result_error_context_and_release :
    (∀ (env : DbEnv) (lib : GoLib) (name : String) (params : List ProcedureParam),
      balancedTrace (CallProcedure env lib name params).2) ∧
    (∀ (env : DbEnv) (lib : GoLib) (name : String) (params : List ProcedureParam)
        (args : List (String × BoundArg)) (outMap : List (String × DestKind))
        (e : String) (tr : List Event),
      env.execErr = none →
      bindParams lib params = .ok (args, outMap) →
      CallProcedure env lib name params = (.error e, tr) →
      (∃ p ∈ params, strToUpper p.Direction ≠ "IN" ∧ strHasSub p.Name e = true) ∧
        balancedTrace tr) := by
  constructor
  · intro env lib name params
    rw [CallProcedure]
    cases hbind : bindParams lib params with
    | error e => simp [balancedTrace]
    | ok pr =>
      dsimp only
      cases hexec : env.execErr with
      | some e => simp [balancedTrace, isAcquireEvent, isCloseEvent]
      | none =>
        dsimp only
        have hb := processOut_trace_balanced env lib pr.2 params []
        rw [balancedTrace] at hb ⊢
        simp only [List.countP_cons, isAcquireEvent, isCloseEvent] at hb ⊢
        omega
  · intro env lib name params args outMap e tr hexec hbind hcall
    rw [CallProcedure, hbind] at hcall
    dsimp only at hcall
    rw [hexec] at hcall
    dsimp only at hcall
    cases hpo : processOutputParameters env lib outMap [] params with
    | mk r1 r2 =>
      rw [hpo] at hcall
      dsimp only at hcall
      simp only [Prod.mk.injEq] at hcall
      constructor
      · exact processOut_error_names env lib outMap params [] e r2 (by rw [hpo, hcall.1])
      · have hb := processOut_trace_balanced env lib outMap params []
        rw [hpo] at hb
        rw [← hcall.2, balancedTrace] at *
        simp only [List.countP_cons, isAcquireEvent, isCloseEvent] at hb ⊢
        omega

/-- C8 witness: a REF CURSOR OUT parameter whose wrap fails — the error
names `cur` and the trace is balanced. -/
theorem C8_witness :
    (∃ p ∈ [ProcedureParam.mk "cur" "REF CURSOR" .vNull "OUT"],
      strToUpper p.Direction ≠ "IN" ∧
      strHasSub p.Name
        "failed to wrap REF CURSOR for parameter cur: ORA-01001: invalid cursor" = true) ∧
    balancedTrace [Event.exec "BEGIN f(:cur); END;"] := by
  exact C8_result_error_context_and_release.2 envWrapFail libW "f"
    [⟨"cur", "REF CURSOR", .vNull, "OUT"⟩]
    [("cur", .outArg .dCursor)] [("cur", .dCursor)]
    "failed to wrap REF CURSOR for parameter cur: ORA-01001: invalid cursor"
    [Event.exec "BEGIN f(:cur); END;"] rfl rfl rfl

